import Mathlib

/-!
Shallow embedding of `main.go` from the grpc-parse repository: a schema-less
protobuf wire-format decoder with a gRPC frame stripper and a JSON-like
renderer.

Modelling conventions:
* Go byte slices are `List Nat`; every byte read is taken `% 256`.
* Go `uint64` arithmetic is `Nat` with explicit `% 2 ^ 64` where overflow
  matters; Go `int` (64-bit) values that can overflow are modelled as `Int`
  with explicit two's-complement wraparound (`wrap64`, `i64`).
* Go strings are byte sequences, so the renderer produces `List Nat`.
* `ParseProto`'s loop does not always make progress (`proto.DecodeVarint`
  reports truncation as zero bytes consumed, without an error), so the loop
  is embedded with an explicit fuel parameter counting loop iterations and
  recursive descents.  `PRes.hang` is the fuel running out: if
  `ppLoop fuel data pos msg = PRes.hang` for every `fuel`, the Go loop at
  that state never terminates.
* A Go runtime panic (slice bounds out of range, reachable in the
  length-delimited branch through `int(x)` overflow) is `PRes.panicked`;
  it propagates unconditionally, like a Go panic in a program with no
  `recover`.
* The Go `Message` is `map[uint64][]Field`; it is embedded as an
  association list in key-insertion order, and the renderer iterates in
  that order (one of the admissible orders of an unordered Go map).
-/

namespace GrpcParse

/-- Error kinds of the decoder, one per `fmt.Errorf`/library error site:
`Missing gRPC frame size` (main.go:47), `Incomplete gRPC frame`
(main.go:56), `Not enough bytes for length delimited field` (main.go:102),
`Invalid field type` (main.go:142) and `io.ErrUnexpectedEOF` from
`proto.Buffer.DecodeFixed32/DecodeFixed64`. -/
inductive Err : Type where
  | missingFrameHeader (found : Nat)
  | incompleteFrame (wanted found : Nat)
  | truncatedLengthDelim (wanted found : Nat)
  | invalidWireType (typ : Nat)
  | unexpectedEOF
deriving DecidableEq, Repr

/-- Outcome of running a piece of the Go decoder: a value, an error return,
a runtime panic, or failure to terminate within the given fuel. -/
inductive PRes (α : Type) : Type where
  | ok (a : α)
  | err (e : Err)
  | panicked
  | hang
deriving DecidableEq, Repr

/-- `Tag` struct (main.go:30-33). -/
structure Tag : Type where
  fieldID : Nat
  typ : Nat
deriving DecidableEq, Repr

mutual
/-- `Field` struct (main.go:21-26): four pointer slots, `nil` = `none`.
The Go `string` field holds the raw payload bytes (a Go string is a byte
sequence). -/
inductive Field : Type where
  | mk (numeric : Option Nat) (str : Option (List Nat))
       (message : Option Message) (bytes : Option (List Nat)) : Field
/-- `Message = map[uint64][]Field` (main.go:28), embedded as an association
list in key-insertion order. -/
inductive Message : Type where
  | nil : Message
  | cons (id : Nat) (fields : FieldList) (rest : Message) : Message
/-- `[]Field`, the per-key sequence of a `Message`. -/
inductive FieldList : Type where
  | nil : FieldList
  | cons (f : Field) (rest : FieldList) : FieldList
end

/-- `append` on the per-key field sequence. -/
def FieldList.append : FieldList → FieldList → FieldList
  | .nil, ys => ys
  | .cons x xs, ys => .cons x (FieldList.append xs ys)

/-- Map lookup `m[id]` on the embedded `Message`. -/
def Message.lookup : Message → Nat → Option FieldList
  | .nil, _ => none
  | .cons i fs rest, id => if i = id then some fs else Message.lookup rest id

/-- `addField` (main.go:36-43): append to the existing sequence of `id`, or
bind `id` to a fresh one-element sequence. -/
def addField : Message → Nat → Field → Message
  | .nil, id, f => .cons id (.cons f .nil) .nil
  | .cons i fs rest, id, f =>
    if i = id then .cons i (FieldList.append fs (.cons f .nil)) rest
    else .cons i fs (addField rest id f)

/-- Loop body of `proto.DecodeVarint` (github.com/golang/protobuf/proto):
7 data bits per byte, continuation in the high bit; returns `(0, 0)` -
with no error - when the buffer ends on a continuation byte or when the
value would need a shift of 64 or more. -/
def dvLoop : List Nat → Nat → Nat → Nat → Nat × Nat
  | buf, shift, x, n =>
    if 64 ≤ shift then (0, 0)
    else
      match buf with
      | [] => (0, 0)
      | b :: rest =>
        if (b % 256) &&& 0x80 = 0 then (x ||| (((b % 256) &&& 0x7F) <<< shift) % 2 ^ 64, n + 1)
        else dvLoop rest (shift + 7) (x ||| (((b % 256) &&& 0x7F) <<< shift) % 2 ^ 64) (n + 1)

/-- `proto.DecodeVarint buf`: decoded value and bytes consumed. -/
def decodeVarint (buf : List Nat) : Nat × Nat := dvLoop buf 0 0 0

/-- `ParseTag` (main.go:125-144): decode one varint, split it as
`typ = x & 7`, `id = x >> 3`; wire types 0, 1, 2, 5 are accepted, anything
else is `Invalid field type: typ`.  A truncated tag varint comes back from
`DecodeVarint` as `(0, 0)` and is accepted as field 0 / wire type 0 with
zero bytes consumed. -/
def parseTag (data : List Nat) : Except Err (Tag × Nat) :=
  match decodeVarint data with
  | (x, n) =>
    if x &&& 7 = 0 ∨ x &&& 7 = 1 ∨ x &&& 7 = 2 ∨ x &&& 7 = 5 then
      .ok (⟨x >>> 3, x &&& 7⟩, n)
    else .error (.invalidWireType (x &&& 7))

/-- A UTF-8 continuation byte, `0x80..0xBF`. -/
def contB (b : Nat) : Bool := decide (0x80 ≤ b % 256) && decide (b % 256 ≤ 0xBF)

/-- `utf8.Valid` from the Go standard library: every rune is a well-formed
1-4 byte sequence (first-byte classes and accept ranges exactly as in Go's
`utf8.first`/`utf8.acceptRanges` tables, which exclude overlong forms,
surrogates and code points above U+10FFFF). -/
def utf8Valid : List Nat → Bool
  | [] => true
  | b0 :: rest =>
    if b0 % 256 ≤ 0x7F then utf8Valid rest
    else if 0xC2 ≤ b0 % 256 ∧ b0 % 256 ≤ 0xDF then
      match rest with
      | c1 :: r => contB c1 && utf8Valid r
      | [] => false
    else if 0xE0 ≤ b0 % 256 ∧ b0 % 256 ≤ 0xEF then
      match rest with
      | c1 :: c2 :: r =>
        (if b0 % 256 = 0xE0 then decide (0xA0 ≤ c1 % 256) && decide (c1 % 256 ≤ 0xBF)
         else if b0 % 256 = 0xED then decide (0x80 ≤ c1 % 256) && decide (c1 % 256 ≤ 0x9F)
         else contB c1) && contB c2 && utf8Valid r
      | _ => false
    else if 0xF0 ≤ b0 % 256 ∧ b0 % 256 ≤ 0xF4 then
      match rest with
      | c1 :: c2 :: c3 :: r =>
        (if b0 % 256 = 0xF0 then decide (0x90 ≤ c1 % 256) && decide (c1 % 256 ≤ 0xBF)
         else if b0 % 256 = 0xF4 then decide (0x80 ≤ c1 % 256) && decide (c1 % 256 ≤ 0x8F)
         else contB c1) && contB c2 && contB c3 && utf8Valid r
      | _ => false
    else false

/-- Little-endian value of a byte list (used for `DecodeFixed32` /
`DecodeFixed64` on a 4- or 8-byte prefix). -/
def leBytes : List Nat → Nat
  | [] => 0
  | b :: rest => b % 256 + 256 * leBytes rest

/-- Reinterpret a `uint64` value as Go's `int64` (the `int(x)` conversion
at main.go:101/104/105). -/
def i64 (x : Nat) : Int := if x < 2 ^ 63 then (x : Int) else (x : Int) - 2 ^ 64

/-- Two's-complement wraparound of 64-bit signed addition. -/
def wrap64 (z : Int) : Int := (z + 2 ^ 63) % 2 ^ 64 - 2 ^ 63

/-- The Go expression `pos + int(x)` (main.go:101): the end index of a
length-delimited payload, computed in wrapping `int` arithmetic. -/
def ldEnd (p x : Nat) : Int := wrap64 ((p : Int) + i64 x)

/-- The slice `data[pos : pos+int(x)]` (main.go:104), taken when the
bounds check passed. -/
def ldContent (data : List Nat) (p x : Nat) : List Nat :=
  (data.drop p).take ((ldEnd p x).toNat - p)

/-- The loop of `ParseProto` (main.go:62-123) over `(pos, msg)`, with
`fuel` bounding the number of loop iterations and recursive descents.
Branch by branch:
* loop exit `pos < len(data)` fails → `(msg, pos)` (main.go:65, 122);
* `ParseTag` error → propagated (main.go:66-69);
* wire type 0: `DecodeVarint`, numeric field, `pos += n` - note a
  truncated varint yields `(0, 0)` and consumes nothing (main.go:72-77);
* wire type 5/1: 4/8 bytes little-endian or `io.ErrUnexpectedEOF`
  (main.go:78-97);
* wire type 2: length varint `x`, bounds check `pos+int(x) > len(data)`
  in wrapping `int` arithmetic, then the slice `data[pos:pos+int(x)]` -
  which panics when `pos + int(x) < pos` - then the classifier
  (main.go:98-119): recursive decode, else UTF-8 text, else raw bytes;
* any other wire type: unreachable after `ParseTag`, the Go `switch`
  falls through and the loop continues at `pos + n`. -/
def ppLoop : Nat → List Nat → Nat → Message → PRes (Message × Nat)
  | 0, data, pos, msg => if data.length ≤ pos then .ok (msg, pos) else .hang
  | fuel + 1, data, pos, msg =>
    if data.length ≤ pos then .ok (msg, pos)
    else
      match parseTag (data.drop pos) with
      | .error e => .err e
      | .ok (tag, n) =>
        if tag.typ = 0 then
          match decodeVarint (data.drop (pos + n)) with
          | (x, k) =>
            ppLoop fuel data (pos + n + k)
              (addField msg tag.fieldID (Field.mk (some x) none none none))
        else if tag.typ = 5 then
          if (data.drop (pos + n)).length < 4 then .err .unexpectedEOF
          else
            ppLoop fuel data (pos + n + 4)
              (addField msg tag.fieldID
                (Field.mk (some (leBytes ((data.drop (pos + n)).take 4))) none none none))
        else if tag.typ = 1 then
          if (data.drop (pos + n)).length < 8 then .err .unexpectedEOF
          else
            ppLoop fuel data (pos + n + 8)
              (addField msg tag.fieldID
                (Field.mk (some (leBytes ((data.drop (pos + n)).take 8))) none none none))
        else if tag.typ = 2 then
          match decodeVarint (data.drop (pos + n)) with
          | (x, k) =>
            if (data.length : Int) < ldEnd (pos + n + k) x then
              .err (.truncatedLengthDelim x (data.length - (pos + n + k)))
            else if ldEnd (pos + n + k) x < ((pos + n + k : Nat) : Int) then .panicked
            else
              match ppLoop fuel (ldContent data (pos + n + k) x) 0 .nil with
              | .ok (sub, _) =>
                ppLoop fuel data (ldEnd (pos + n + k) x).toNat
                  (addField msg tag.fieldID (Field.mk none none (some sub) none))
              | .err _ =>
                if utf8Valid (ldContent data (pos + n + k) x) then
                  ppLoop fuel data (ldEnd (pos + n + k) x).toNat
                    (addField msg tag.fieldID
                      (Field.mk none (some (ldContent data (pos + n + k) x)) none none))
                else
                  ppLoop fuel data (ldEnd (pos + n + k) x).toNat
                    (addField msg tag.fieldID
                      (Field.mk none none none (some (ldContent data (pos + n + k) x))))
              | .panicked => .panicked
              | .hang => .hang
        else ppLoop fuel data (pos + n) msg

/-- `ParseProto` (main.go:62): run the loop from `pos = 0` on an empty
message. -/
def parseProto (fuel : Nat) (data : List Nat) : PRes (Message × Nat) :=
  ppLoop fuel data 0 .nil

/-- The heuristic classifier for a length-delimited payload
(main.go:106-119): recursive decode wins, an error return from the
recursive decode falls back to UTF-8 text, else raw bytes.  A panic or
divergence of the recursive decode propagates. -/
def classify (fuel : Nat) (content : List Nat) : PRes Field :=
  match ppLoop fuel content 0 .nil with
  | .ok (sub, _) => .ok (Field.mk none none (some sub) none)
  | .err _ =>
    if utf8Valid content then .ok (Field.mk none (some content) none none)
    else .ok (Field.mk none none none (some content))
  | .panicked => .panicked
  | .hang => .hang

/-- The frame-size accumulation of `ParseGrpc` (main.go:49-53): note the
loop runs `i = 0` to `4` and therefore folds **all five** header bytes -
including the flag byte 0 - into `size`. -/
def frameSize (data : List Nat) : Nat :=
  (data.take 5).foldl (fun acc b => acc * 256 + b % 256) 0

/-- `ParseGrpc` (main.go:45-60): 5-byte header, size check, then
`ParseProto` on the first `size` payload bytes; consumed count is the
decoder's plus 5. -/
def parseGrpc (fuel : Nat) (data : List Nat) : PRes (Message × Nat) :=
  if data.length < 5 then .err (.missingFrameHeader data.length)
  else if (data.drop 5).length < frameSize data then
    .err (.incompleteFrame (frameSize data) (data.drop 5).length)
  else
    match ppLoop fuel ((data.drop 5).take (frameSize data)) 0 .nil with
    | .ok (m, k) => .ok (m, k + 5)
    | .err e => .err e
    | .panicked => .panicked
    | .hang => .hang

/-- Number of populated slots in an `Option`. -/
def optCount : Option α → Nat
  | none => 0
  | some _ => 1

mutual
/-- Exactly one of the four `Field` slots is populated, recursively in
nested messages (the invariant behind `RenderField`'s nil-checks,
main.go:162-176). -/
def fieldWF : Field → Bool
  | .mk n s m b =>
    (optCount n + optCount s + optCount m + optCount b == 1) &&
      (match m with
       | none => true
       | some sub => msgWF sub)
/-- `fieldWF` over every field of every key of a message. -/
def msgWF : Message → Bool
  | .nil => true
  | .cons _ fs rest => fieldListWF fs && msgWF rest
/-- `fieldWF` over a field sequence. -/
def fieldListWF : FieldList → Bool
  | .nil => true
  | .cons f rest => fieldWF f && fieldListWF rest
end

/-- Decimal digits of `n` as ASCII bytes (Go `fmt` `%d`). -/
def decBytes (n : Nat) : List Nat := (Nat.toDigits 10 n).map Char.toNat

/-- One lowercase hexadecimal digit as an ASCII byte. -/
def hexDigit (n : Nat) : Nat := if n < 10 then 48 + n else 87 + n

/-- Lowercase hex of a byte sequence, two digits per byte (Go `fmt` `%x`
on a `[]byte`). -/
def hexBytes : List Nat → List Nat
  | [] => []
  | b :: rest => hexDigit (b % 256 / 16) :: hexDigit (b % 256 % 16) :: hexBytes rest

mutual
/-- The entry list of `Render` (main.go:146-160), comma-joined: each key
renders as `"id":value` when its sequence has exactly one element and as
`"id":[v1,...,vk]` otherwise.  Byte 34 is the double quote, 58 `:`,
44 `,`, 91 `[`, 93 `]`. -/
def renderEntries : Message → List Nat
  | .nil => []
  | .cons id (.cons f .nil) .nil => 34 :: decBytes id ++ [34, 58] ++ renderField f
  | .cons id fs .nil => 34 :: decBytes id ++ [34, 58, 91] ++ renderList fs ++ [93]
  | .cons id (.cons f .nil) rest =>
    34 :: decBytes id ++ [34, 58] ++ renderField f ++ [44] ++ renderEntries rest
  | .cons id fs rest =>
    34 :: decBytes id ++ [34, 58, 91] ++ renderList fs ++ [93, 44] ++ renderEntries rest
/-- `RenderField` (main.go:162-176), first populated slot in declaration
order wins: numeric → decimal; string → raw bytes in double quotes (no
escaping); message → recursive object (byte 123 is an opening brace,
125 a closing one); bytes → the Go expression `fmt.Sprintf("%x", f.bytes)`
where `f.bytes` is a `*[]byte`: Go's `fmt` dereferences a non-nil
top-level pointer to a slice and prefixes `&` (byte 38), so this prints
an ampersand followed by the lowercase hex of the contents - not the bare
hex digits. -/
def renderField : Field → List Nat
  | .mk (some x) _ _ _ => decBytes x
  | .mk none (some s) _ _ => 34 :: s ++ [34]
  | .mk none none (some m) _ => 123 :: renderEntries m ++ [125]
  | .mk none none none (some bs) => 38 :: hexBytes bs
  | .mk none none none none => []
/-- Comma-joined rendering of a field sequence (the `repeated` slice of
main.go:152-156). -/
def renderList : FieldList → List Nat
  | .nil => []
  | .cons f .nil => renderField f
  | .cons f rest => renderField f ++ [44] ++ renderList rest
end

/-- `Render` (main.go:146-160): braces around the comma-joined entries,
iterating keys in insertion order (one admissible order of the Go map). -/
def render (m : Message) : List Nat := 123 :: renderEntries m ++ [125]

/-- ASCII bytes of a Lean string literal, for writing expected outputs. -/
def ascii (s : String) : List Nat := s.data.map Char.toNat

/-- Decode with `ParseProto` and render, as `main` does (main.go:178-186);
`none` when the decode errors, panics or diverges. -/
def decodeRender (fuel : Nat) (data : List Nat) : Option (List Nat) :=
  match parseProto fuel data with
  | .ok (m, _) => some (render m)
  | _ => none

/-! ### Helper lemmas -/

/-- At a position where the tag varint is malformed (zero bytes consumed,
wire-type bits 0), the loop makes no progress: it runs out of any amount
of fuel, i.e. the Go loop never terminates from that state. -/
theorem ppLoop_stuck (fuel : Nat) : ∀ data pos msg, pos < data.length →
    (decodeVarint (data.drop pos)).2 = 0 →
    (decodeVarint (data.drop pos)).1 &&& 7 = 0 →
    ppLoop fuel data pos msg = .hang := by
  induction fuel with
  | zero =>
    intro data pos msg h1 h2 h3
    simp only [ppLoop, if_neg (Nat.not_le.mpr h1)]
  | succ f ih =>
    intro data pos msg h1 h2 h3
    rcases hdv : decodeVarint (data.drop pos) with ⟨x, k⟩
    rw [hdv] at h2 h3
    simp only at h2 h3
    subst h2
    have hpt : parseTag (data.drop pos) = .ok (⟨x >>> 3, x &&& 7⟩, 0) := by
      simp only [parseTag, hdv]
      simp [h3]
    simp only [ppLoop, if_neg (Nat.not_le.mpr h1), hpt, h3, Nat.add_zero]
    simp only [if_pos rfl, hdv, Nat.add_zero]
    exact ih data pos _ h1 (by rw [hdv]) (by rw [hdv]; exact h3)

/-- C4: the claim that the decode pipeline terminates on every input is
false: on the one-byte input `0x80` (a truncated varint) `ParseProto`
never terminates - `proto.DecodeVarint` returns zero bytes consumed with
no error, so `pos` never advances - and hence neither does `ParseGrpc` on
the frame `[0,0,0,0,1,0x80]` carrying that byte as its payload.  Running
out of every amount of fuel is non-termination of the Go loop. -/
theorem c4_decode_loops_forever (fuel : Nat) :
    parseProto fuel [0x80] = .hang ∧ parseGrpc fuel [0, 0, 0, 0, 1, 0x80] = .hang := by
  have h : ppLoop fuel [0x80] 0 .nil = .hang :=
    ppLoop_stuck fuel [0x80] 0 .nil (by decide) (by decide) (by decide)
  constructor
  · exact h
  · have e : parseGrpc fuel [0, 0, 0, 0, 1, 0x80] =
        (match ppLoop fuel [0x80] 0 Message.nil with
         | .ok (m, k) => PRes.ok (m, k + 5)
         | .err e => .err e
         | .panicked => .panicked
         | .hang => .hang) := rfl
    rw [e, h]

/-- `proto.DecodeVarint` never consumes more bytes than the buffer has. -/
theorem dvLoop_le : ∀ (buf : List Nat) (shift x n : Nat),
    (dvLoop buf shift x n).2 ≤ n + buf.length
  | [], shift, x, n => by
    simp only [dvLoop]
    split
    · simp
    · simp
  | b :: rest, shift, x, n => by
    simp only [dvLoop]
    split
    · simp
    · split
      · simp
      · exact (dvLoop_le rest (shift + 7) _ (n + 1)).trans (by simp; omega)

/-- `proto.DecodeVarint` never consumes more bytes than the buffer has. -/
theorem decodeVarint_le (buf : List Nat) : (decodeVarint buf).2 ≤ buf.length := by
  simpa using dvLoop_le buf 0 0 0

/-- `ParseTag` never consumes more bytes than the buffer has. -/
theorem parseTag_le (data : List Nat) (tag : Tag) (n : Nat)
    (h : parseTag data = .ok (tag, n)) : n ≤ data.length := by
  rcases hdv : decodeVarint data with ⟨x, k⟩
  simp only [parseTag, hdv] at h
  split at h
  · cases h
    have hle := decodeVarint_le data
    rw [hdv] at hle
    simpa using hle
  · cases h

/-- When the decode loop returns successfully from a position inside the
buffer, the reported consumed count is the whole buffer: `ParseProto`
succeeds only by consuming its entire slice. -/
theorem ppLoop_consumes_all : ∀ (fuel : Nat) (data : List Nat) (pos : Nat)
    (msg m : Message) (n : Nat), pos ≤ data.length →
    ppLoop fuel data pos msg = .ok (m, n) → n = data.length := by
  intro fuel
  induction fuel with
  | zero =>
    intro data pos msg m n hp h
    simp only [ppLoop] at h
    split at h
    · rename_i hle
      cases h
      omega
    · cases h
  | succ f ih =>
    intro data pos msg m n hp h
    simp only [ppLoop] at h
    split at h
    · rename_i hle
      cases h
      omega
    · rename_i hgt
      split at h
      · cases h
      · rename_i tk hpt
        have htag := parseTag_le _ _ _ hpt
        rw [List.length_drop] at htag
        split at h
        · -- wire type 0
          refine ih _ _ _ _ _ ?_ h
          have hk := decodeVarint_le (data.drop (pos + tk))
          rw [List.length_drop] at hk
          omega
        · split at h
          · -- wire type 5
            split at h
            · cases h
            · rename_i h4
              rw [List.length_drop] at h4
              refine ih _ _ _ _ _ (by omega) h
          · split at h
            · -- wire type 1
              split at h
              · cases h
              · rename_i h8
                rw [List.length_drop] at h8
                refine ih _ _ _ _ _ (by omega) h
            · split at h
              · -- wire type 2
                split at h
                · cases h
                · split at h
                  · cases h
                  · split at h
                    · refine ih _ _ _ _ _ (by omega) h
                    · split at h
                      · refine ih _ _ _ _ _ (by omega) h
                      · refine ih _ _ _ _ _ (by omega) h
                    · cases h
                    · cases h
              · -- unreachable wire types: the switch falls through
                refine ih _ _ _ _ _ (by omega) h

/-- C1: the claim that `ParseGrpc` computes the frame length from bytes
1-4 only, ignoring the flag byte, is false: the loop at main.go:50-53
folds all five header bytes into `size`.  On `[0x01,0,0,0,0]` (flag 1,
big-endian length field 0) the claimed behaviour is a successful empty
decode, but the code computes `size = 2^32` and fails with the
incomplete-frame error `wanted 4294967296, found 0`. -/
theorem c1_frame_size_includes_flag_byte :
    parseGrpc 1 [0x01, 0, 0, 0, 0] = .err (.incompleteFrame 4294967296 0) ∧
      frameSize [0x01, 0, 0, 0, 0] = 2 ^ 32 := by
  constructor <;> rfl

/-- C5: the claim that truncating any well-formed field fails with a
`Truncated`/`TruncatedVarint` error is false for varint fields: no
truncated-varint error exists in the code.  Truncating the well-formed
field `[0x08, 0x05]` (field 1, varint value 5) to `[0x08]` makes
`proto.DecodeVarint` return `(0, 0)` with no error at the end of the
buffer, and the decode *succeeds* silently with field 1 bound to numeric
0 - a silent short read. -/
theorem c5_truncated_varint_silent_success :
    parseProto 2 [0x08] =
      .ok (.cons 1 (.cons (Field.mk (some 0) none none none) .nil) .nil, 1) := by
  rfl

/-- C2: the payload `0x68 0x69` ("hi") of the claim is in fact a
structurally valid message - `0x68` is the tag of field 13 with wire
type 0 and `0x69` the varint value 105 - so the classifier does *not*
fall through to text, and the decode of `0x0a 0x02 0x68 0x69` renders as
a nested object, not as the claimed string. -/
theorem c2_hi_is_not_text :
    decodeRender 12 [0x0a, 0x02, 0x68, 0x69] ≠
      some (ascii "\x7b\"1\":\"hi\"\x7d") := by
  decide

/-- C2 (amended): decoding `0x0a 0x02 0x68 0x69` and rendering yields
the nested-object text with field 13 bound to 105 inside field 1, and the
recursive decode of the payload succeeds consuming both bytes. -/
theorem c2_hi_renders_as_nested_message :
    decodeRender 12 [0x0a, 0x02, 0x68, 0x69] =
      some (ascii "\x7b\"1\":\x7b\"13\":105\x7d\x7d") ∧
      parseProto 12 [0x68, 0x69] =
        .ok (.cons 13 (.cons (Field.mk (some 105) none none none) .nil) .nil, 2) := by
  constructor <;> rfl

/-- C3: the claim that a `Bytes` field renders as the bare lowercase hex
digits is false on both counts.  `RenderField` formats the *pointer*
`f.bytes` with `%x` (main.go:173); Go's `fmt` dereferences a non-nil
top-level pointer to a slice and prefixes `&`, so `[0xFF, 0xFE]` renders
as `&fffe`, not `fffe`.  Moreover the end-to-end example of the spec
cannot even reach the renderer: decoding `0x0a 0x02 0xFF 0xFE` never
terminates, because the classifier's recursive decode of `[0xFF, 0xFE]`
is an infinite loop (truncated varint, see C4). -/
theorem c3_bytes_render_has_ampersand :
    renderField (Field.mk none none none (some [0xFF, 0xFE])) = ascii "&fffe" ∧
      ascii "&fffe" ≠ ascii "fffe" ∧
      ∀ fuel, parseProto fuel [0x0a, 0x02, 0xFF, 0xFE] = .hang := by
  refine ⟨rfl, by decide, fun fuel => ?_⟩
  match fuel with
  | 0 => rfl
  | f + 1 =>
    have h : ppLoop f [0xFF, 0xFE] 0 .nil = .hang :=
      ppLoop_stuck f [0xFF, 0xFE] 0 .nil (by decide) (by decide) (by decide)
    have e : parseProto (f + 1) [0x0a, 0x02, 0xFF, 0xFE] =
        (match ppLoop f [0xFF, 0xFE] 0 Message.nil with
         | .ok (sub, _) =>
           ppLoop f [0x0a, 0x02, 0xFF, 0xFE] 4
             (addField Message.nil 1 (Field.mk none none (some sub) none))
         | .err _ =>
           ppLoop f [0x0a, 0x02, 0xFF, 0xFE] 4
             (addField Message.nil 1 (Field.mk none none none (some [0xFF, 0xFE])))
         | .panicked => .panicked
         | .hang => .hang) := rfl
    rw [e, h]

/-- C7: `ParseTag` splits the decoded tag varint `x` into field number
`x >> 3` and wire type `x & 7`, accepts exactly wire types 0, 1, 2 and 5
(returning them unchanged together with the bytes consumed), and fails
with `InvalidWireType` carrying the offending wire-type value otherwise
(in particular for wire types 3 and 4). -/
theorem c7_parse_tag_wire_types (data : List Nat) (x n : Nat)
    (h : decodeVarint data = (x, n)) :
    (x &&& 7 = 0 ∨ x &&& 7 = 1 ∨ x &&& 7 = 2 ∨ x &&& 7 = 5 →
      parseTag data = .ok (⟨x >>> 3, x &&& 7⟩, n)) ∧
    (x &&& 7 ≠ 0 → x &&& 7 ≠ 1 → x &&& 7 ≠ 2 → x &&& 7 ≠ 5 →
      parseTag data = .error (.invalidWireType (x &&& 7))) := by
  constructor
  · intro hv
    simp only [parseTag, h]
    rw [if_pos hv]
  · intro h0 h1 h2 h5
    simp only [parseTag, h]
    rw [if_neg (by tauto)]

/-- Witness for C7 at the tag byte `0x1B` (tag value 27 = field 3, wire
type 3, the deprecated group encoding): `ParseTag` rejects it with
`InvalidWireType 3`; and at `0x08` (field 1, wire type 0), accepted. -/
theorem c7_parse_tag_wire_types_witness :
    parseTag [0x1B] = .error (.invalidWireType (27 &&& 7)) ∧
      parseTag [0x08] = .ok (⟨8 >>> 3, 8 &&& 7⟩, 1) := by
  constructor
  · exact (c7_parse_tag_wire_types [0x1B] 27 1 rfl).2
      (by decide) (by decide) (by decide) (by decide)
  · exact (c7_parse_tag_wire_types [0x08] 8 1 rfl).1 (by decide)

/-- `addField` appends the new field at the end of the sequence already
bound to its number (or starts a fresh one-element sequence). -/
theorem lookup_addField : ∀ (m : Message) (id : Nat) (f : Field),
    Message.lookup (addField m id f) id =
      some (FieldList.append ((Message.lookup m id).getD .nil) (.cons f .nil))
  | .nil, id, f => by simp [addField, Message.lookup, FieldList.append]
  | .cons i fs rest, id, f => by
    by_cases hi : i = id
    · subst hi; simp [addField, Message.lookup]
    · simp [addField, Message.lookup, hi, lookup_addField rest id f]

/-- C8: `addField` appends a repeated occurrence at the end of the
sequence already bound to its field number (encounter order), and the
renderer emits a field number with two occurrences as a bracketed
comma-joined list: the two varint occurrences of field 7 with values 1
then 2 (bytes `0x38 0x01 0x38 0x02`) render as `{"7":[1,2]}`. -/
theorem c8_repeated_fields :
    (∀ (m : Message) (id : Nat) (f : Field),
      Message.lookup (addField m id f) id =
        some (FieldList.append ((Message.lookup m id).getD .nil) (.cons f .nil))) ∧
      decodeRender 8 [0x38, 0x01, 0x38, 0x02] = some (ascii "\x7b\"7\":[1,2]\x7d") :=
  ⟨lookup_addField, rfl⟩

/-- C10: decoding the empty slice succeeds with the empty message and
zero bytes consumed (the loop body never runs), so the classifier maps
every zero-length payload to a `Nested` empty message - never `Text` or
`Bytes` - which renders as empty braces; end to end, `0x0a 0x00` renders
as a field 1 bound to an empty object. -/
theorem c10_empty_message :
    (∀ fuel, parseProto fuel [] = .ok (.nil, 0)) ∧
    (∀ fuel, classify fuel [] = .ok (Field.mk none none (some .nil) none)) ∧
      renderField (Field.mk none none (some .nil) none) = ascii "\x7b\x7d" ∧
      decodeRender 3 [0x0a, 0x00] = some (ascii "\x7b\"1\":\x7b\x7d\x7d") := by
  refine ⟨fun fuel => ?_, fun fuel => ?_, rfl, rfl⟩
  · match fuel with
    | 0 => rfl
    | f + 1 => rfl
  · have h : ppLoop fuel [] 0 .nil = .ok (.nil, 0) := by
      match fuel with
      | 0 => rfl
      | f + 1 => rfl
    simp [classify, h]

/-- C6 counterexample: the classifier does not always absorb a recursive
decode failure.  On the payload `0x0a 0xFF×8 0x7F` - field 1,
length-delimited, declared length `2^63 - 1` - the recursive decode's Go
bounds check `pos+int(x) > len(data)` overflows `int` and the slice
expression panics; the panic propagates out of the classifier instead of
falling back to Text or Bytes. -/
theorem c6_panic_propagates :
    classify 1 [0x0a, 0xFF, 0xFF, 0xFF, 0xFF, 0xFF, 0xFF, 0xFF, 0xFF, 0x7F] =
      .panicked := by
  rfl

/-- C6 (amended): for every payload slice and fuel, the classifier tries
the recursive message decode first - success (which always consumes the
entire slice) wins and wraps `Nested`; an *error return* from the
recursive decode is absorbed, falling back to `Text` when the slice is
valid UTF-8 and `Bytes` otherwise; and the classifier never returns an
error itself.  (A recursive decode that panics or diverges, however,
produces no classification: the panic propagates and the divergence
hangs, see `c6_panic_propagates`.) -/
theorem c6_classifier_policy (fuel : Nat) (content : List Nat) :
    (∀ sub k, ppLoop fuel content 0 .nil = .ok (sub, k) →
      classify fuel content = .ok (Field.mk none none (some sub) none) ∧
        k = content.length) ∧
    (∀ e, ppLoop fuel content 0 .nil = .err e →
      classify fuel content =
        if utf8Valid content then .ok (Field.mk none (some content) none none)
        else .ok (Field.mk none none none (some content))) ∧
    (∀ e, classify fuel content ≠ .err e) := by
  refine ⟨fun sub k h =>
      ⟨by simp [classify, h], ppLoop_consumes_all fuel content 0 .nil sub k (Nat.zero_le _) h⟩,
    fun e h => by simp [classify, h], fun e hc => ?_⟩
  rcases hr : ppLoop fuel content 0 Message.nil with _ | _ | _ | _ <;>
    simp [classify, hr] at hc
  split at hc <;> cases hc

/-- Witness for C6 at fuel 1: on `[0x0F]` the recursive decode fails
(wire type 7 is invalid), the byte is ASCII, and the classifier returns
the Text fallback. -/
theorem c6_classifier_policy_witness :
    classify 1 [0x0F] = .ok (Field.mk none (some [0x0F]) none none) := by
  have h := (c6_classifier_policy 1 [0x0F]).2.1 (.invalidWireType 7) rfl
  rw [h]
  rfl

/-- `fieldListWF` distributes over `append`. -/
theorem fieldListWF_append : ∀ (xs ys : FieldList),
    fieldListWF (FieldList.append xs ys) = (fieldListWF xs && fieldListWF ys)
  | .nil, ys => by simp [FieldList.append, fieldListWF]
  | .cons f rest, ys => by
    simp [FieldList.append, fieldListWF, fieldListWF_append rest ys, Bool.and_assoc]

/-- `addField` preserves message well-formedness when the new field is
well-formed. -/
theorem addField_wf : ∀ (m : Message) (id : Nat) (f : Field),
    msgWF m = true → fieldWF f = true → msgWF (addField m id f) = true
  | .nil, id, f, _, hf => by simp [addField, msgWF, fieldListWF, hf]
  | .cons i fs rest, id, f, hm, hf => by
    rw [msgWF, Bool.and_eq_true] at hm
    by_cases hi : i = id
    · subst hi
      simp [addField, msgWF, fieldListWF_append, fieldListWF, hm.1, hm.2, hf]
    · simp [addField, hi, msgWF, hm.1, addField_wf rest id f hm.2 hf]

/-- Every message the decode loop returns is well-formed, provided the
accumulator was: each branch adds a field with exactly one populated
slot, and a `Nested` field only ever wraps the result of a successful
recursive decode. -/
theorem ppLoop_wf : ∀ (fuel : Nat) (data : List Nat) (pos : Nat) (msg m : Message)
    (n : Nat), msgWF msg = true → ppLoop fuel data pos msg = .ok (m, n) →
    msgWF m = true := by
  intro fuel
  induction fuel with
  | zero =>
    intro data pos msg m n hw h
    simp only [ppLoop] at h
    split at h
    · cases h; exact hw
    · cases h
  | succ f ih =>
    intro data pos msg m n hw h
    simp only [ppLoop] at h
    split at h
    · cases h; exact hw
    · split at h
      · cases h
      · split at h
        · -- wire type 0: numeric field
          exact ih _ _ _ _ _ (addField_wf _ _ _ hw (by rfl)) h
        · split at h
          · -- wire type 5
            split at h
            · cases h
            · exact ih _ _ _ _ _ (addField_wf _ _ _ hw (by rfl)) h
          · split at h
            · -- wire type 1
              split at h
              · cases h
              · exact ih _ _ _ _ _ (addField_wf _ _ _ hw (by rfl)) h
            · split at h
              · -- wire type 2
                split at h
                · cases h
                · split at h
                  · cases h
                  · split at h
                    · -- recursive decode succeeded: nested field
                      rename_i sub k2 hsub
                      have hs : msgWF sub = true := ih _ _ _ _ _ (by rfl) hsub
                      refine ih _ _ _ _ _ (addField_wf _ _ _ hw ?_) h
                      rw [show fieldWF (Field.mk none none (some sub) none) =
                        msgWF sub from rfl]
                      exact hs
                    · -- recursive decode errored: text or bytes fallback
                      split at h
                      · exact ih _ _ _ _ _ (addField_wf _ _ _ hw (by rfl)) h
                      · exact ih _ _ _ _ _ (addField_wf _ _ _ hw (by rfl)) h
                    · cases h
                    · cases h
              · -- unreachable wire types: nothing is added
                exact ih _ _ _ _ _ hw h

/-- C9: every message produced by a successful decode satisfies the
exactly-one-variant invariant, at the top level and hereditarily in
every nested sub-message: each `Field` has exactly one of its four slots
populated. -/
theorem c9_exactly_one_variant (fuel : Nat) (data : List Nat) (m : Message) (n : Nat)
    (h : parseProto fuel data = .ok (m, n)) : msgWF m = true :=
  ppLoop_wf fuel data 0 .nil m n rfl h

/-- Witness for C9 on the decode of `[0x08, 0x05]` (field 1, varint 5). -/
theorem c9_exactly_one_variant_witness :
    msgWF (.cons 1 (.cons (Field.mk (some 5) none none none) .nil) .nil) = true :=
  c9_exactly_one_variant 2 [0x08, 0x05]
    (.cons 1 (.cons (Field.mk (some 5) none none none) .nil) .nil) 2 rfl

end GrpcParse
